import Mathlib

/-!
Verification development for the noise-repellent spectral denoising engine.

The C sources are shallowly embedded: float arrays become functions from
bin index to rationals, in-place loops become folds over the iteration
range, and transcendental float primitives (log10f, powf, cosf, sinf,
atanf) are abstracted as function parameters, so every theorem holds for
any realization of them.  Collaborator modules whose sources are not part
of the repository snapshot (gain_estimator.c, noise_estimator.c,
spectral_utils.c) are abstracted as parameters or, where a definition is
unavoidable, modelled from the specification and marked as such.
-/

set_option maxHeartbeats 1000000
set_option linter.unusedVariables false

/-- Pointwise update of an array modelled as a function: a[i] = v. -/
def setIdx (a : ℕ → ℚ) (i : ℕ) (v : ℚ) : ℕ → ℚ :=
  fun j => if j = i then v else a j

/-- A C loop of the shape: for (k = lo; k < lo + n; k++) body(k),
folded over an arbitrary loop-carried state. -/
def cFor {σ : Type} (lo n : ℕ) (body : σ → ℕ → σ) (s : σ) : σ :=
  (List.range n).foldl (fun acc i => body acc (lo + i)) s

/-- FLT_MIN, the smallest positive normal 32-bit float, as a rational. -/
def flt_min : ℚ := 1 / 2 ^ 126

/-! ## spectral_processor.c: wet/dry crossfade (fft_denoiser_update_wetdry_target) -/

/-- From spectral_processor.c, fft_denoiser_update_wetdry_target: sets the
crossfade target from the enable flag and advances wet_dry by
tau * (target - wet_dry) + FLT_MIN.  Returns (wet_dry_target, wet_dry). -/
def fft_denoiser_update_wetdry_target (tau wet_dry : ℚ) (enable : Bool) : ℚ × ℚ :=
  let target : ℚ := if enable then 1 else 0
  (target, wet_dry + tau * (target - wet_dry) + flt_min)

/-! ## stft_processor.c: per-sample FIFO positions and transform cycles -/

/-- State of the STFT framer relevant to its control flow: the read
position into the FIFOs and a counter of fired forward-plus-inverse
transform cycles (each cycle is the analysis, denoise callback, synthesis
sequence of stft_processor_run).  The FIFO contents do not influence the
control flow and are omitted. -/
structure STFTProcessor where
  fft_size : ℕ
  half_fft_size : ℕ
  overlap_factor : ℕ
  hop : ℕ
  input_latency : ℕ
  read_position : ℕ
  transform_count : ℕ

/-- One iteration of the per-sample loop of stft_processor_run: store the
sample, emit the delayed sample, increment read_position; when it reaches
fft_size, reset it to input_latency and fire one transform cycle
(analysis, fft_denoiser_run, synthesis). -/
def stft_step (s : STFTProcessor) : STFTProcessor :=
  let rp := s.read_position + 1
  if s.fft_size ≤ rp then
    { s with read_position := s.input_latency, transform_count := s.transform_count + 1 }
  else
    { s with read_position := rp }

/-- stft_processor_run on a block of n_samples samples: the per-sample
loop iterated n_samples times. -/
def stft_processor_run (s : STFTProcessor) (n_samples : ℕ) : STFTProcessor :=
  stft_step^[n_samples] s

/-! ## spectral_processor.c: the per-frame denoising orchestrator -/

/-- WHITENING_FLOOR from spectral_processor.c. -/
def whitening_floor : ℚ := 2 / 100

/-- The parameter block read once per invocation by spectral_processor_run. -/
structure ProcessorParameters where
  enable : Bool
  learn_noise : Bool
  residual_listen : Bool
  transient_threshold : ℚ
  masking_ceiling_limit : ℚ
  release_time : ℚ
  noise_rescale : ℚ
  reduction_amount : ℚ
  whitening_factor : ℚ

/-- State of the SpectralProcessor struct of spectral_processor.c.  Arrays
of length half_fft_size + 1 (and fft_size for fft_spectrum) are modelled
as functions from the bin index. -/
structure SpectralProcessor where
  fft_size : ℕ
  half_fft_size : ℕ
  tau : ℚ
  wet_dry_target : ℚ
  wet_dry : ℚ
  residual_max_spectrum : ℕ → ℚ
  whitened_residual_spectrum : ℕ → ℚ
  max_decay_rate : ℚ
  whitening_window_count : ℕ
  gain_spectrum : ℕ → ℚ
  residual_spectrum : ℕ → ℚ
  denoised_spectrum : ℕ → ℚ
  power_spectrum : ℕ → ℚ
  fft_spectrum : ℕ → ℚ
  processed_fft_spectrum : ℕ → ℚ
  noise_profile : ℕ → ℚ

/-- From spectral_processor.c, is_empty: true when every bin k with
1 <= k <= half_fft_size satisfies spectrum[k] <= FLT_MIN. -/
def is_empty (spectrum : ℕ → ℚ) (half_fft_size : ℕ) : Bool :=
  (List.range half_fft_size).all (fun i => decide (spectrum (i + 1) ≤ flt_min))

/-- Modelled from the spec: get_fft_power_spectrum lives in
spectral_utils.c, which is not among the repository sources.  Spec
section 3 gives power[0] = Re(X[0])^2, power[H] = Re(X[H])^2 and
power[k] = Re^2 + Im^2 for 0 < k < H, with the halfcomplex layout placing
Im(X[k]) at index F - k.  This also agrees with get_info_from_bins in
stft_processor.c. -/
def get_fft_power_spectrum (fft_spectrum : ℕ → ℚ) (fft_size half_fft_size : ℕ) :
    ℕ → ℚ :=
  fun k =>
    if k = 0 then fft_spectrum 0 * fft_spectrum 0
    else if k < half_fft_size then
      fft_spectrum k * fft_spectrum k +
        fft_spectrum (fft_size - k) * fft_spectrum (fft_size - k)
    else fft_spectrum k * fft_spectrum k

/-- From spectral_processor.c, fft_denoiser_soft_bypass: for k = 1 to
half_fft_size, processed[k] = (1 - wet_dry) * fft[k] + processed[k] * wet_dry. -/
def fft_denoiser_soft_bypass (s : SpectralProcessor) : SpectralProcessor :=
  { s with
    processed_fft_spectrum := cFor 1 s.half_fft_size (fun acc k =>
      setIdx acc k ((1 - s.wet_dry) * s.fft_spectrum k + acc k * s.wet_dry))
      s.processed_fft_spectrum }

/-- From spectral_processor.c, get_denoised_spectrum: for k = 1 to
half_fft_size, denoised[k] = fft[k] * gain[k]. -/
def get_denoised_spectrum (s : SpectralProcessor) : SpectralProcessor :=
  { s with
    denoised_spectrum := cFor 1 s.half_fft_size (fun acc k =>
      setIdx acc k (s.fft_spectrum k * s.gain_spectrum k))
      s.denoised_spectrum }

/-- From spectral_processor.c, residual_spectrum_whitening: increment the
window count, raise the residual running maximum (with decay after the
first window and the WHITENING_FLOOR), then blend each residual bin above
FLT_MIN with its whitened version. -/
def residual_spectrum_whitening (s : SpectralProcessor) (whitening_factor : ℚ) :
    SpectralProcessor :=
  let count := s.whitening_window_count + 1
  let rmax := cFor 1 s.half_fft_size (fun acc k =>
      setIdx acc k (if 1 < count then
          max (max (s.residual_spectrum k) whitening_floor) (acc k * s.max_decay_rate)
        else max (s.residual_spectrum k) whitening_floor))
      s.residual_max_spectrum
  let wr := cFor 1 s.half_fft_size
      (fun (acc : (ℕ → ℚ) × (ℕ → ℚ)) k =>
        if flt_min < acc.2 k then
          (setIdx acc.1 k (acc.2 k / rmax k),
           setIdx acc.2 k ((1 - whitening_factor) * acc.2 k +
             whitening_factor * (acc.2 k / rmax k)))
        else acc)
      (s.whitened_residual_spectrum, s.residual_spectrum)
  { s with whitening_window_count := count, residual_max_spectrum := rmax,
           whitened_residual_spectrum := wr.1, residual_spectrum := wr.2 }

/-- From spectral_processor.c, get_residual_spectrum: residual[k] =
fft[k] - denoised[k] for k = 1 to half_fft_size, then whitening when the
whitening factor is positive. -/
def get_residual_spectrum (s : SpectralProcessor) (whitening_factor : ℚ) :
    SpectralProcessor :=
  let s1 :=
    { s with
      residual_spectrum := cFor 1 s.half_fft_size (fun acc k =>
        setIdx acc k (s.fft_spectrum k - s.denoised_spectrum k))
        s.residual_spectrum }
  if 0 < whitening_factor then residual_spectrum_whitening s1 whitening_factor else s1

/-- From spectral_processor.c, get_final_spectrum: either monitor the
residual or mix denoised plus scaled residual, for k = 1 to half_fft_size. -/
def get_final_spectrum (s : SpectralProcessor) (residual_listen : Bool)
    (reduction_amount : ℚ) : SpectralProcessor :=
  if residual_listen then
    { s with
      processed_fft_spectrum := cFor 1 s.half_fft_size (fun acc k =>
        setIdx acc k (s.residual_spectrum k))
        s.processed_fft_spectrum }
  else
    { s with
      processed_fft_spectrum := cFor 1 s.half_fft_size (fun acc k =>
        setIdx acc k (s.denoised_spectrum k + s.residual_spectrum k * reduction_amount))
        s.processed_fft_spectrum }

/-- From spectral_processor.c, spectral_processor_run.  The collaborators
whose sources are not in the repository snapshot are passed as parameters:
noise_estimation_run (noise_estimator.c), the boolean result of
is_noise_estimation_available, and gain_estimation_run (gain_estimator.c);
every theorem below therefore holds for any implementation of them.
Returns the new state together with the buffer written back to the caller.
The final memcpy copies sizeof(float) * half_fft_size + 1 bytes, which by
C precedence is 4 * half_fft_size + 1 bytes: only the first half_fft_size
floats are copied whole, so the model leaves the caller buffer unchanged
from index half_fft_size on (the single stray byte written into float
number half_fft_size is below float granularity and no claim depends on
that bin). -/
def spectral_processor_run
    (noise_estimation_run : (ℕ → ℚ) → (ℕ → ℚ) → (ℕ → ℚ))
    (is_noise_estimation_available : Bool)
    (gain_estimation_run : (ℕ → ℚ) → (ℕ → ℚ) → ℚ → ℚ → ℚ → ℚ → (ℕ → ℚ))
    (s : SpectralProcessor) (params : ProcessorParameters)
    (fft_spectrum_in : ℕ → ℚ) : SpectralProcessor × (ℕ → ℚ) :=
  let wd := fft_denoiser_update_wetdry_target s.tau s.wet_dry params.enable
  let s0 :=
    { s with
      wet_dry_target := wd.1
      wet_dry := wd.2
      fft_spectrum := fft_spectrum_in
      power_spectrum := get_fft_power_spectrum fft_spectrum_in s.fft_size
        s.half_fft_size }
  let s1 :=
    if ¬ is_empty s0.power_spectrum s0.half_fft_size then
      if params.learn_noise then
        { s0 with noise_profile := noise_estimation_run s0.noise_profile s0.power_spectrum }
      else if is_noise_estimation_available then
        let s2 :=
          { s0 with
            gain_spectrum := gain_estimation_run s0.power_spectrum
              s0.noise_profile params.transient_threshold params.masking_ceiling_limit
              params.release_time params.noise_rescale }
        let s3 := get_denoised_spectrum s2
        let s4 := get_residual_spectrum s3 params.whitening_factor
        get_final_spectrum s4 params.residual_listen params.reduction_amount
      else s0
    else s0
  let s5 := fft_denoiser_soft_bypass s1
  (s5, fun k => if k < s5.half_fft_size then s5.processed_fft_spectrum k
                else fft_spectrum_in k)

/-! ## masking_estimator.c: Bark bands and masking thresholds

The repository holds two variants of this file: src/src/masking_estimator.c
with the preprocessor symbol BIAS defined to 1, and
subprojects/libnrepel/src/denoiser/masking_estimator.c with BIAS defined
to 0.  Both are embedded below through a common core taking the BIAS
configuration as a boolean.  The transcendental float primitives log10f
and powf(10, .) are abstracted as function parameters log10q and pow10q,
so every theorem holds for any realization of them. -/

def n_bark_bands : ℕ := 25

/-- The relative_thresholds table of src/src/masking_estimator.c (the
BIAS table). -/
def relative_thresholds (j : ℕ) : ℚ :=
  [(-16 : ℚ), -17, -18, -19, -20, -21, -22, -23, -24, -25, -25, -25, -25,
   -25, -25, -24, -23, -22, -19, -18, -18, -18, -18, -18, -18].getD j 0

/-- Immutable per-engine state of the masking estimator, filled at
construction from the Bark mapping, the threshold-of-hearing formula, the
1 kHz SPL calibration and the Schroeder spreading matrix (all built from
transcendental float functions, hence arbitrary here).  The flattened
25 x 25 spreading matrix keeps its C indexing i * 25 + j. -/
structure MaskingEstimator where
  fft_size : ℕ
  half_fft_size : ℕ
  samp_rate : ℕ
  bark_z : ℕ → ℚ
  absolute_thresholds : ℕ → ℚ
  spl_reference_values : ℕ → ℚ
  spectral_spreading_function : ℕ → ℚ
  unity_gain_bark_spectrum : ℕ → ℚ
  spreaded_unity_gain_bark_spectrum : ℕ → ℚ

/-- The while loop inside compute_bark_spectrum: from offset cont after
last_position, keep accumulating spectrum bins as long as
floor(bark_z[last_position + cont]) equals j + 1; returns the final
counter and the accumulated band energy.  The C loop is bounded in
practice by the monotone bark_z array of length half_fft_size + 1; here
the iteration count is capped by a fuel argument instantiated with
half_fft_size + 2. -/
def bark_band_while (bark_z spectrum : ℕ → ℚ) (j last : ℕ) :
    ℕ → ℕ → ℚ → ℕ × ℚ
  | 0, cont, acc => (cont, acc)
  | fuel + 1, cont, acc =>
    if Int.floor (bark_z (last + cont)) = (j : ℤ) + 1 then
      bark_band_while bark_z spectrum j last fuel (cont + 1)
        (acc + spectrum (last + cont))
    else (cont, acc)

/-- From compute_bark_spectrum (identical in both variants): partition the
bins into the 25 Bark bands by walking bark_z, starting band 0 at offset 1.
Returns (bark_spectrum, intermediate_band_bins, n_bins_per_band); the two
bookkeeping arrays hold integer counts (stored in float arrays by the C
code) and are modelled as naturals. -/
def compute_bark_spectrum (bark_z spectrum : ℕ → ℚ) (half_fft_size : ℕ) :
    (ℕ → ℚ) × (ℕ → ℕ) × (ℕ → ℕ) :=
  let st := cFor 0 n_bark_bands
    (fun (st : (ℕ → ℚ) × (ℕ → ℕ) × (ℕ → ℕ) × ℕ) j =>
      let cont0 := if j = 0 then 1 else 0
      let r := bark_band_while bark_z spectrum j st.2.2.2 (half_fft_size + 2) cont0 0
      let last := st.2.2.2 + r.1
      (setIdx st.1 j r.2,
       fun i => if i = j then last else st.2.1 i,
       fun i => if i = j then r.1 else st.2.2.1 i,
       last))
    (fun _ => 0, fun _ => 0, fun _ => 0, 0)
  (st.1, st.2.1, st.2.2.1)

/-- From convolve_with_spectral_spreading_function of the src/src variant;
the libnrepel variant calls the identical
naive_matrix_to_vector_spectral_convolution helper (spec section 4.3:
spreaded = S * bark_spectrum). -/
def convolve_with_spectral_spreading_function
    (spreading_function bark_spectrum : ℕ → ℚ) : ℕ → ℚ :=
  fun i => (List.range n_bark_bands).foldl
    (fun acc j => acc + spreading_function (i * n_bark_bands + j) * bark_spectrum j) 0

/-- From compute_tonality_factor (identical in both variants): the
spectral flatness measure of band j mapped to min(SFM / -60, 1). -/
def compute_tonality_factor (log10q : ℚ → ℚ) (spectrum : ℕ → ℚ)
    (intermediate_band_bins n_bins_per_band : ℕ → ℕ) (band : ℕ) : ℚ :=
  let start_pos := if band = 0 then 0 else intermediate_band_bins (band - 1)
  let end_pos := if band = 0 then n_bins_per_band 0
    else intermediate_band_bins (band - 1) + n_bins_per_band band
  let sums := cFor start_pos (end_pos - start_pos)
    (fun (acc : ℚ × ℚ) k => (acc.1 + spectrum k, acc.2 + log10q (spectrum k))) (0, 0)
  let SFM := 10 * (sums.2 / (n_bins_per_band band : ℚ) -
    log10q (sums.1 / (n_bins_per_band band : ℚ)))
  min (SFM / (-60)) 1

/-- The tonality-driven masking offset computed inline by
compute_masking_thresholds before the preprocessor BIAS override. -/
def masking_offset_formula (tonality_factor : ℚ) (j : ℕ) : ℚ :=
  tonality_factor * (14.5 + ((j : ℚ) + 1)) + 5.5 * (1 - tonality_factor)

/-- The per-band masking offset actually used by compute_masking_thresholds:
the tonality formula when BIAS is 0 (libnrepel variant) and the fixed
relative_thresholds table plus HIGH_FREQ_BIAS = 20 above band 15 when BIAS
is 1 (src/src variant). -/
def band_masking_offset (bias : Bool) (log10q : ℚ → ℚ) (spectrum : ℕ → ℚ)
    (intermediate_band_bins n_bins_per_band : ℕ → ℕ) (j : ℕ) : ℚ :=
  let t := compute_tonality_factor log10q spectrum intermediate_band_bins
    n_bins_per_band j
  let off := masking_offset_formula t j
  if bias then relative_thresholds j + (if 15 < j then 20 else 0) else off

/-- The per-band threshold: threshold_j = 10^(log10(spreaded_j) -
offset_j / 10) - 10 * log10(spreaded_unity_j). -/
def band_threshold_j (bias : Bool) (log10q pow10q : ℚ → ℚ) (spectrum : ℕ → ℚ)
    (intermediate_band_bins n_bins_per_band : ℕ → ℕ)
    (spreaded spreaded_unity : ℕ → ℚ) (j : ℕ) : ℚ :=
  pow10q (log10q (spreaded j) -
    band_masking_offset bias log10q spectrum intermediate_band_bins
      n_bins_per_band j / 10) -
  10 * log10q (spreaded_unity j)

/-- The main band loop of compute_masking_thresholds: for each of the 25
bands compute the offset and the threshold, and broadcast the threshold to
every bin of the band.  The loop state carries (masking_offset,
threshold_j, masking_thresholds); the first two are locals in the src/src
variant and estimator fields in the libnrepel variant, and are surfaced
here so the offsets are observable. -/
def masking_band_loop (bias : Bool) (log10q pow10q : ℚ → ℚ) (spectrum : ℕ → ℚ)
    (intermediate_band_bins n_bins_per_band : ℕ → ℕ)
    (spreaded spreaded_unity : ℕ → ℚ)
    (st0 : (ℕ → ℚ) × (ℕ → ℚ) × (ℕ → ℚ)) : (ℕ → ℚ) × (ℕ → ℚ) × (ℕ → ℚ) :=
  cFor 0 n_bark_bands
    (fun (st : (ℕ → ℚ) × (ℕ → ℚ) × (ℕ → ℚ)) j =>
      (setIdx st.1 j (band_masking_offset bias log10q spectrum
         intermediate_band_bins n_bins_per_band j),
       setIdx st.2.1 j (band_threshold_j bias log10q pow10q spectrum
         intermediate_band_bins n_bins_per_band spreaded spreaded_unity j),
       cFor (if j = 0 then 0 else intermediate_band_bins (j - 1))
         (intermediate_band_bins j -
           (if j = 0 then 0 else intermediate_band_bins (j - 1)))
         (fun m k => setIdx m k (band_threshold_j bias log10q pow10q spectrum
           intermediate_band_bins n_bins_per_band spreaded spreaded_unity j))
         st.2.2))
    st0

/-- Common body of compute_masking_thresholds.  bias selects the
preprocessor BIAS configuration (true in src/src, false in libnrepel) and
clamp_lo the first bin of the final clamp loop (0 in src/src, 1 in
libnrepel).  The caller buffer m0 and the offset and threshold scratch
arrays off0 and thr0 are inputs; the result pairs the written thresholds
with the per-band offsets.  The libnrepel dB SPL conversion
(convert_spectrum_to_dbspl of the spl_spectrum_converter collaborator,
not among the sources) is modelled from the spec, which says to add
spl_reference[k]; that is exactly what convert_to_dbspl of the src/src
variant does. -/
def compute_masking_thresholds_core (bias : Bool) (clamp_lo : ℕ)
    (est : MaskingEstimator) (log10q pow10q : ℚ → ℚ)
    (spectrum m0 off0 thr0 : ℕ → ℚ) : (ℕ → ℚ) × (ℕ → ℚ) :=
  let b := compute_bark_spectrum est.bark_z spectrum est.half_fft_size
  let spreaded := convolve_with_spectral_spreading_function
    est.spectral_spreading_function b.1
  let lp := masking_band_loop bias log10q pow10q spectrum b.2.1 b.2.2 spreaded
    est.spreaded_unity_gain_bark_spectrum (off0, thr0, m0)
  let m1 := cFor 0 (est.half_fft_size + 1) (fun acc k =>
    setIdx acc k (acc k + est.spl_reference_values k)) lp.2.2
  let m2 := cFor clamp_lo (est.half_fft_size + 1 - clamp_lo) (fun acc k =>
    setIdx acc k (max (acc k) (est.absolute_thresholds k))) m1
  (m2, lp.1)

/-- compute_masking_thresholds of src/src/masking_estimator.c: BIAS is 1
and the final clamp against the absolute thresholds runs for
k = 0 to half_fft_size. -/
def compute_masking_thresholds (est : MaskingEstimator) (log10q pow10q : ℚ → ℚ)
    (spectrum m0 off0 thr0 : ℕ → ℚ) : (ℕ → ℚ) × (ℕ → ℚ) :=
  compute_masking_thresholds_core true 0 est log10q pow10q spectrum m0 off0 thr0

/-- compute_masking_thresholds of
subprojects/libnrepel/src/denoiser/masking_estimator.c: BIAS is 0 and the
final clamp runs for k = 1 to half_fft_size. -/
def compute_masking_thresholds_libnrepel (est : MaskingEstimator)
    (log10q pow10q : ℚ → ℚ) (spectrum m0 off0 thr0 : ℕ → ℚ) :
    (ℕ → ℚ) × (ℕ → ℚ) :=
  compute_masking_thresholds_core false 1 est log10q pow10q spectrum m0 off0 thr0

/-- The masking offset exactly as worded by the spec, section 4.3 step 3:
T * (14.5 + j+1) + 5.5 * (1 - T). -/
def spec_masking_offset (T : ℚ) (j : ℕ) : ℚ :=
  T * (14.5 + ((j : ℚ) + 1)) + 5.5 * (1 - T)

/-- A concrete small estimator for closed evaluations: half_fft_size 2,
with a Bark map placing bins 1 and 2 in band 1 and nothing beyond. -/
def estTest : MaskingEstimator :=
  { fft_size := 4
    half_fft_size := 2
    samp_rate := 48000
    bark_z := fun k => if k ≤ 2 then 1 else 26
    absolute_thresholds := fun _ => 0
    spl_reference_values := fun _ => 0
    spectral_spreading_function := fun _ => 1
    unity_gain_bark_spectrum := fun _ => 1
    spreaded_unity_gain_bark_spectrum := fun _ => 1 }

/-! ## noise_repellent_state.c: persistence of the noise profile -/

/-- An entry handed back by the host retrieve callback: the stored value
with its reported byte size and atom type URID. -/
structure StoredEntry (α : Type) where
  value : α
  size : ℕ
  type : ℕ

def sizeof_float : ℕ := 4

def sizeof_int : ℕ := 4

/-- From plugin_state_savestate of noise_repellent_state.c: the memcpy
into the persisted vector copies
sizeof(self->noise_profile->noise_profile_size) bytes.  That field is an
int, so exactly sizeof(int) = 4 bytes = one float is copied, whatever the
profile length half_fft_size + 1 is. -/
def plugin_state_savestate_values (stored noise_profile : ℕ → ℚ) : ℕ → ℚ :=
  fun k => if k < sizeof_int / sizeof_float then noise_profile k else stored k

/-- From plugin_state_restorestate of noise_repellent_state.c.  Returns
(result, engine noise profile, engine noise window count, plugin-state
internal vector).  The code rejects unless the persisted fft_size equals
half_fft_size (not fft_size); on acceptance its memcpy writes into the
plugin-state NoiseProfile object, never through the engine noise_profile
parameter, and the block-count assignment targets the by-value parameter
noise_window_count, so the engine-visible state is unchanged on every
path.  (At byte level that memcpy lands on the NoiseProfile struct header;
that layout accident is not representable here and is modelled as filling
the internal vector.) -/
def plugin_state_restorestate (atom_Int atom_Float atom_Vector : ℕ)
    (sizeof_NoiseProfile : ℕ)
    (fftsize_entry : Option (StoredEntry ℤ))
    (profile_entry : Option (StoredEntry (ℕ → ℚ)))
    (blockcount_entry : Option (StoredEntry ℚ))
    (noise_profile : ℕ → ℚ) (noise_window_count : ℚ)
    (fft_size half_fft_size : ℤ) (ps_values : ℕ → ℚ) :
    Bool × (ℕ → ℚ) × ℚ × (ℕ → ℚ) :=
  match fftsize_entry with
  | none => (false, noise_profile, noise_window_count, ps_values)
  | some fe =>
    if fe.type ≠ atom_Int ∨ fe.value ≠ half_fft_size then
      (false, noise_profile, noise_window_count, ps_values)
    else
      match profile_entry with
      | none => (false, noise_profile, noise_window_count, ps_values)
      | some pe =>
        if pe.size ≠ sizeof_NoiseProfile ∨ pe.type ≠ atom_Vector then
          (false, noise_profile, noise_window_count, ps_values)
        else
          (true, noise_profile, noise_window_count,
           fun k => if (k : ℤ) < half_fft_size + 1 then pe.value k else ps_values k)

/-! ## nrepel.c: spectral reassembly in the legacy run callback -/

/-- From the run callback of nrepel.c (the reassembly loop after
processing): one bin of the complex spectrum rebuilt from its processed
magnitude and preserved phase, with cosf and sinf abstracted as c and s.
The source computes both components with c. -/
def reassemble_complex_bin (c s : ℚ → ℚ) (magnitude phase : ℚ) : ℚ × ℚ :=
  (magnitude * c phase, magnitude * c phase)

/-! ## Concrete instances for closed evaluations -/

/-- A trivial stand-in for the abstracted noise_estimation_run. -/
def noiseEstTest : (ℕ → ℚ) → (ℕ → ℚ) → (ℕ → ℚ) := fun noise _ => noise

/-- A trivial stand-in for the abstracted gain_estimation_run. -/
def gainEstTest : (ℕ → ℚ) → (ℕ → ℚ) → ℚ → ℚ → ℚ → ℚ → (ℕ → ℚ) :=
  fun _ _ _ _ _ _ => fun _ => 0

/-- A concrete small processor state: fft_size 2, half_fft_size 1. -/
def spTest : SpectralProcessor :=
  { fft_size := 2
    half_fft_size := 1
    tau := 1 / 2
    wet_dry_target := 0
    wet_dry := 0
    residual_max_spectrum := fun _ => 0
    whitened_residual_spectrum := fun _ => 0
    max_decay_rate := 1 / 2
    whitening_window_count := 0
    gain_spectrum := fun _ => 0
    residual_spectrum := fun _ => 0
    denoised_spectrum := fun _ => 0
    power_spectrum := fun _ => 0
    fft_spectrum := fun _ => 0
    processed_fft_spectrum := fun _ => 0
    noise_profile := fun _ => 0 }

/-- Concrete parameters: disabled, not learning, whitening off. -/
def paramsTest : ProcessorParameters :=
  { enable := false
    learn_noise := false
    residual_listen := false
    transient_threshold := 1
    masking_ceiling_limit := 1
    release_time := 1
    noise_rescale := 1
    reduction_amount := 1
    whitening_factor := 0 }

/-- Concrete parameters with whitening engaged. -/
def paramsWhiten : ProcessorParameters :=
  { paramsTest with whitening_factor := 1 }

/-- A concrete framer state: fft_size 4, hop 2, primed at latency 2. -/
def stftTest : STFTProcessor :=
  { fft_size := 4
    half_fft_size := 2
    overlap_factor := 2
    hop := 2
    input_latency := 2
    read_position := 2
    transform_count := 0 }

theorem setIdx_self (a : ℕ → ℚ) (i : ℕ) (v : ℚ) : setIdx a i v i = v := by
  simp [setIdx]

theorem setIdx_ne (a : ℕ → ℚ) (i j : ℕ) (v : ℚ) (h : j ≠ i) : setIdx a i v j = a j := by
  simp [setIdx, h]

theorem cFor_succ {σ : Type} (lo n : ℕ) (body : σ → ℕ → σ) (s : σ) :
    cFor lo (n + 1) body s = body (cFor lo n body s) (lo + n) := by
  simp [cFor, List.range_succ]

/-- A loop writing only a[k] at each index k of [lo, lo+n) leaves indices
outside that interval unchanged. -/
theorem cFor_setIdx_out (F : (ℕ → ℚ) → ℕ → ℚ) (lo n j : ℕ) (a : ℕ → ℚ)
    (h : j < lo ∨ lo + n ≤ j) :
    cFor lo n (fun acc k => setIdx acc k (F acc k)) a j = a j := by
  induction n with
  | zero => rfl
  | succ n ih =>
    rw [cFor_succ]
    have hne : j ≠ lo + n := by omega
    show setIdx _ (lo + n) _ j = a j
    rw [setIdx_ne _ _ _ _ hne]
    exact ih (by omega)

/-- A loop writing a[k] := F(a, k) at each index k of [lo, lo+n), where F
reads the array only at the index being written, acts pointwise: the value
at an index j of the interval is F applied to the original array. -/
theorem cFor_setIdx_mem (F : (ℕ → ℚ) → ℕ → ℚ)
    (hF : ∀ a b : ℕ → ℚ, ∀ k, a k = b k → F a k = F b k)
    (lo n j : ℕ) (a : ℕ → ℚ) (h1 : lo ≤ j) (h2 : j < lo + n) :
    cFor lo n (fun acc k => setIdx acc k (F acc k)) a j = F a j := by
  induction n with
  | zero => omega
  | succ n ih =>
    rw [cFor_succ]
    by_cases hj : j = lo + n
    · subst hj
      show setIdx _ _ (F (cFor lo n _ a) _) _ = _
      rw [setIdx_self]
      exact hF _ _ _ (cFor_setIdx_out F lo n _ a (Or.inr le_rfl))
    · show setIdx _ (lo + n) _ j = F a j
      rw [setIdx_ne _ _ _ _ hj]
      exact ih (by omega)

/-- In a loop over a product state whose first component receives, at
iteration k, a value f k independent of the loop-carried state, the first
component ends up being f at every index of the interval. -/
theorem cFor_fst_setIdx {β : Type} (f : ℕ → ℚ) (G : (ℕ → ℚ) × β → ℕ → β)
    (lo n j : ℕ) (h1 : lo ≤ j) (h2 : j < lo + n) (p : (ℕ → ℚ) × β) :
    (cFor lo n (fun st k => (setIdx st.1 k (f k), G st k)) p).1 j = f j := by
  induction n generalizing p with
  | zero => omega
  | succ n ih =>
    rw [cFor_succ]
    by_cases hj : j = lo + n
    · subst hj
      exact setIdx_self _ _ _
    · show setIdx _ (lo + n) _ j = f j
      rw [setIdx_ne _ _ _ _ hj]
      exact ih (by omega) p

theorem flt_min_pos : 0 < flt_min := by norm_num [flt_min]

/-! ## Arithmetic helpers for the hop counter -/

theorem succ_mod_of_eq (n hop : ℕ) (hh : 0 < hop) (h : n % hop + 1 = hop) :
    (n + 1) % hop = 0 ∧ (n + 1) / hop = n / hop + 1 := by
  have hd := Nat.div_add_mod n hop
  have h2 : hop * (n / hop + 1) = hop * (n / hop) + hop := by ring
  have h1 : n + 1 = hop * (n / hop + 1) := by rw [h2]; omega
  constructor
  · rw [h1]; exact Nat.mul_mod_right hop _
  · rw [h1]; exact Nat.mul_div_cancel_left _ hh

theorem succ_mod_of_lt (n hop : ℕ) (hh : 0 < hop) (h : n % hop + 1 < hop) :
    (n + 1) % hop = n % hop + 1 ∧ (n + 1) / hop = n / hop := by
  have hd := Nat.div_add_mod n hop
  have h1 : n + 1 = (n % hop + 1) + hop * (n / hop) := by omega
  constructor
  · rw [h1, Nat.add_mul_mod_self_left, Nat.mod_eq_of_lt h]
  · rw [h1, Nat.add_mul_div_left _ _ hh, Nat.div_eq_of_lt h, Nat.zero_add]

theorem stft_step_of_wrap (s : STFTProcessor) (h : s.fft_size ≤ s.read_position + 1) :
    stft_step s =
      { s with read_position := s.input_latency, transform_count := s.transform_count + 1 } := by
  simp [stft_step, h]

theorem stft_step_of_no_wrap (s : STFTProcessor) (h : ¬ s.fft_size ≤ s.read_position + 1) :
    stft_step s = { s with read_position := s.read_position + 1 } := by
  simp [stft_step, h]

theorem stft_step_iterate (hop lat c0 : ℕ) (hh : 0 < hop) (n : ℕ) (s : STFTProcessor)
    (hF : s.fft_size = lat + hop) (hl : s.input_latency = lat)
    (hr : s.read_position = lat) (hc : s.transform_count = c0) :
    (stft_step^[n] s).fft_size = lat + hop ∧
    (stft_step^[n] s).input_latency = lat ∧
    (stft_step^[n] s).read_position = lat + n % hop ∧
    (stft_step^[n] s).transform_count = c0 + n / hop := by
  induction n with
  | zero =>
    simp [hF, hl, hr, hc]
  | succ n ih =>
    obtain ⟨ihF, ihl, ihr, ihc⟩ := ih
    have hmlt : n % hop < hop := Nat.mod_lt _ hh
    rw [Function.iterate_succ_apply']
    by_cases hcase : n % hop + 1 = hop
    · obtain ⟨hm, hdv⟩ := succ_mod_of_eq n hop hh hcase
      have hcond : (stft_step^[n] s).fft_size ≤ (stft_step^[n] s).read_position + 1 := by
        rw [ihF, ihr]; omega
      rw [stft_step_of_wrap _ hcond]
      refine ⟨ihF, ihl, ?_, ?_⟩
      · simp only [ihl, hm]
        omega
      · simp only [ihc, hdv]
        omega
    · obtain ⟨hm, hdv⟩ := succ_mod_of_lt n hop hh (by omega)
      have hcond : ¬ (stft_step^[n] s).fft_size ≤ (stft_step^[n] s).read_position + 1 := by
        rw [ihF, ihr]; omega
      rw [stft_step_of_no_wrap _ hcond]
      refine ⟨ihF, ihl, ?_, ?_⟩
      · simp only [ihr, hm]
        omega
      · simp only [ihc, hdv]

/-! ## Claim C3: wet/dry crossfade motion -/

/-- Claim C3 (counterexample): with the crossfade already at its target 0
(enable false, wet_dry 0), the update moves wet_dry to FLT_MIN, which is
strictly beyond the target and above the previous value: the advance is
not confined to the interval between the old value and the target. -/
theorem wetdry_overshoot_counterexample :
    (fft_denoiser_update_wetdry_target (1 / 2) 0 false).1 = 0 ∧
    (fft_denoiser_update_wetdry_target (1 / 2) 0 false).2 = flt_min ∧
    ¬ ((fft_denoiser_update_wetdry_target (1 / 2) 0 false).2 ≤ 0) := by
  refine ⟨rfl, ?_, ?_⟩ <;> norm_num [fft_denoiser_update_wetdry_target, flt_min]

/-- Claim C3 (amended): with tau in [0, 1], each frame moves wet_dry from
its previous value toward the target (1 when enabled, 0 otherwise)
without passing it by more than the additive FLT_MIN nudge: if
wet_dry <= target then old <= new <= target + FLT_MIN, and if
wet_dry >= target then target <= new <= old + FLT_MIN. -/
theorem wetdry_moves_toward_target (tau wet_dry : ℚ) (enable : Bool)
    (h0 : 0 ≤ tau) (h1 : tau ≤ 1) :
    (wet_dry ≤ (fft_denoiser_update_wetdry_target tau wet_dry enable).1 →
      wet_dry ≤ (fft_denoiser_update_wetdry_target tau wet_dry enable).2 ∧
      (fft_denoiser_update_wetdry_target tau wet_dry enable).2 ≤
        (fft_denoiser_update_wetdry_target tau wet_dry enable).1 + flt_min) ∧
    ((fft_denoiser_update_wetdry_target tau wet_dry enable).1 ≤ wet_dry →
      (fft_denoiser_update_wetdry_target tau wet_dry enable).1 ≤
        (fft_denoiser_update_wetdry_target tau wet_dry enable).2 ∧
      (fft_denoiser_update_wetdry_target tau wet_dry enable).2 ≤
        wet_dry + flt_min) := by
  have hf : 0 < flt_min := flt_min_pos
  simp only [fft_denoiser_update_wetdry_target]
  constructor
  · intro h
    constructor <;> nlinarith
  · intro h
    constructor <;> nlinarith

/-- Witness for the amended claim C3 at tau = 1/2, wet_dry = 0, enable. -/
theorem wetdry_moves_toward_target_witness :
    ((0 : ℚ) ≤ 1 / 2 ∧ (1 / 2 : ℚ) ≤ 1) ∧
    (((0 : ℚ) ≤ (fft_denoiser_update_wetdry_target (1 / 2) 0 true).1 →
      (0 : ℚ) ≤ (fft_denoiser_update_wetdry_target (1 / 2) 0 true).2 ∧
      (fft_denoiser_update_wetdry_target (1 / 2) 0 true).2 ≤
        (fft_denoiser_update_wetdry_target (1 / 2) 0 true).1 + flt_min) ∧
    ((fft_denoiser_update_wetdry_target (1 / 2) 0 true).1 ≤ (0 : ℚ) →
      (fft_denoiser_update_wetdry_target (1 / 2) 0 true).1 ≤
        (fft_denoiser_update_wetdry_target (1 / 2) 0 true).2 ∧
      (fft_denoiser_update_wetdry_target (1 / 2) 0 true).2 ≤
        (0 : ℚ) + flt_min)) :=
  ⟨⟨by norm_num, by norm_num⟩,
   wetdry_moves_toward_target (1 / 2) 0 true (by norm_num) (by norm_num)⟩

/-! ## Claim C4: STFT read position and transform cadence -/

/-- Claim C4: on a primed framer (read_position at input_latency, as set
by the initializer, with fft_size = input_latency + hop), after any number
of consumed samples the read position stays in [input_latency, fft_size),
and exactly one forward-plus-inverse transform cycle has fired per hop
consumed input samples. -/
theorem stft_run_read_position_and_cycles (s : STFTProcessor) (n : ℕ)
    (hhop : 0 < s.hop) (hF : s.fft_size = s.input_latency + s.hop)
    (hr : s.read_position = s.input_latency) (hc : s.transform_count = 0) :
    (s.input_latency ≤ (stft_processor_run s n).read_position ∧
      (stft_processor_run s n).read_position < s.fft_size) ∧
    (stft_processor_run s n).transform_count = n / s.hop := by
  obtain ⟨h1, h2, h3, h4⟩ :=
    stft_step_iterate s.hop s.input_latency 0 hhop n s hF rfl hr hc
  have hm : n % s.hop < s.hop := Nat.mod_lt _ hhop
  unfold stft_processor_run
  refine ⟨⟨?_, ?_⟩, ?_⟩
  · rw [h3]; omega
  · rw [h3, hF]; omega
  · rw [h4, Nat.zero_add]

/-- Witness for claim C4 on the concrete framer, consuming 5 samples:
read position 3 in [2, 4), and 2 = 5 / 2 transform cycles fired. -/
theorem stft_run_read_position_and_cycles_witness :
    (0 < stftTest.hop ∧ stftTest.fft_size = stftTest.input_latency + stftTest.hop ∧
      stftTest.read_position = stftTest.input_latency ∧
      stftTest.transform_count = 0) ∧
    ((stftTest.input_latency ≤ (stft_processor_run stftTest 5).read_position ∧
       (stft_processor_run stftTest 5).read_position < stftTest.fft_size) ∧
     (stft_processor_run stftTest 5).transform_count = 5 / stftTest.hop) :=
  ⟨⟨by decide, by decide, by decide, by decide⟩,
   stft_run_read_position_and_cycles stftTest 5 (by decide) (by decide)
     (by decide) (by decide)⟩

/-! ## Claim C6: masking thresholds dominate the absolute thresholds -/

/-- Claim C6: for every estimator state, every input power spectrum and
every bin k with 0 < k <= half_fft_size, the thresholds returned by
compute_masking_thresholds are at least the absolute thresholds of
hearing, in both variants of the estimator and for any realization of the
abstracted log10f and powf primitives. -/
theorem masking_thresholds_absolute_lower_bound
    (est : MaskingEstimator) (log10q pow10q : ℚ → ℚ)
    (spectrum m0 off0 thr0 : ℕ → ℚ) (k : ℕ)
    (hk1 : 1 ≤ k) (hk2 : k ≤ est.half_fft_size) :
    est.absolute_thresholds k ≤
      (compute_masking_thresholds est log10q pow10q spectrum m0 off0 thr0).1 k ∧
    est.absolute_thresholds k ≤
      (compute_masking_thresholds_libnrepel est log10q pow10q spectrum m0 off0 thr0).1 k := by
  constructor
  · simp only [compute_masking_thresholds, compute_masking_thresholds_core]
    rw [cFor_setIdx_mem (fun a j => max (a j) (est.absolute_thresholds j))
      (fun a b j h => by simp only [h]) 0 (est.half_fft_size + 1 - 0) k _ (by omega) (by omega)]
    exact le_max_right _ _
  · simp only [compute_masking_thresholds_libnrepel, compute_masking_thresholds_core]
    rw [cFor_setIdx_mem (fun a j => max (a j) (est.absolute_thresholds j))
      (fun a b j h => by simp only [h]) 1 (est.half_fft_size + 1 - 1) k _ (by omega) (by omega)]
    exact le_max_right _ _

/-- Witness for claim C6 on the concrete estimator at bin 1. -/
theorem masking_thresholds_absolute_lower_bound_witness :
    ((1 : ℕ) ≤ 1 ∧ (1 : ℕ) ≤ estTest.half_fft_size) ∧
    (estTest.absolute_thresholds 1 ≤
      (compute_masking_thresholds estTest (fun _ => 0) (fun _ => 0) (fun _ => 1)
        (fun _ => 0) (fun _ => 0) (fun _ => 0)).1 1 ∧
     estTest.absolute_thresholds 1 ≤
      (compute_masking_thresholds_libnrepel estTest (fun _ => 0) (fun _ => 0) (fun _ => 1)
        (fun _ => 0) (fun _ => 0) (fun _ => 0)).1 1) :=
  ⟨⟨le_refl 1, by decide⟩,
   masking_thresholds_absolute_lower_bound estTest (fun _ => 0) (fun _ => 0)
     (fun _ => 1) (fun _ => 0) (fun _ => 0) (fun _ => 0) 1 (le_refl 1) (by decide)⟩

/-! ## Claim C1: the masking offset -/

/-- Claim C1 (counterexample): with the src/src variant (where the
preprocessor symbol BIAS is 1), band 0 of a concrete spectrum gets the
masking offset -16 from the relative_thresholds table, while the tonality
factor of that band evaluates to 0, at which the formula of the claim
gives 5.5: the BIAS table does replace the tonality-driven value. -/
theorem masking_offset_bias_counterexample :
    (compute_masking_thresholds estTest (fun _ => 0) (fun _ => 0) (fun _ => 1)
      (fun _ => 0) (fun _ => 0) (fun _ => 0)).2 0 = -16 ∧
    compute_tonality_factor (fun _ => 0) (fun _ => 1)
      (compute_bark_spectrum estTest.bark_z (fun _ => 1) estTest.half_fft_size).2.1
      (compute_bark_spectrum estTest.bark_z (fun _ => 1) estTest.half_fft_size).2.2 0 = 0 ∧
    spec_masking_offset 0 0 = 11 / 2 ∧
    (compute_masking_thresholds estTest (fun _ => 0) (fun _ => 0) (fun _ => 1)
      (fun _ => 0) (fun _ => 0) (fun _ => 0)).2 0 ≠
      spec_masking_offset
        (compute_tonality_factor (fun _ => 0) (fun _ => 1)
          (compute_bark_spectrum estTest.bark_z (fun _ => 1) estTest.half_fft_size).2.1
          (compute_bark_spectrum estTest.bark_z (fun _ => 1) estTest.half_fft_size).2.2 0) 0 := by
  have hnper : (compute_bark_spectrum estTest.bark_z (fun _ => 1)
      estTest.half_fft_size).2.2 0 = 3 := by decide
  have hoff : (compute_masking_thresholds estTest (fun _ => 0) (fun _ => 0) (fun _ => 1)
      (fun _ => 0) (fun _ => 0) (fun _ => 0)).2 0 = -16 := by
    simp only [compute_masking_thresholds, compute_masking_thresholds_core,
      masking_band_loop]
    rw [cFor_fst_setIdx _ _ 0 n_bark_bands 0 (le_refl 0) (by norm_num [n_bark_bands])]
    norm_num [band_masking_offset, relative_thresholds]
  have hton : compute_tonality_factor (fun _ => 0) (fun _ => 1)
      (compute_bark_spectrum estTest.bark_z (fun _ => 1) estTest.half_fft_size).2.1
      (compute_bark_spectrum estTest.bark_z (fun _ => 1) estTest.half_fft_size).2.2 0
      = 0 := by
    simp only [compute_tonality_factor, hnper]
    norm_num [cFor, List.range_succ]
  refine ⟨hoff, hton, by norm_num [spec_masking_offset], ?_⟩
  rw [hoff, hton]
  norm_num [spec_masking_offset]

/-- Claim C1 (amended): for every band j, the masking offset used by
compute_masking_thresholds equals T * (14.5 + (j+1)) + 5.5 * (1 - T) at
the computed tonality factor T in the libnrepel reference variant, where
BIAS is 0; in the legacy src/src variant BIAS is 1 and the fixed
relative_thresholds table (plus HIGH_FREQ_BIAS = 20 above band 15)
replaces this value. -/
theorem masking_offset_by_variant
    (est : MaskingEstimator) (log10q pow10q : ℚ → ℚ)
    (spectrum m0 off0 thr0 : ℕ → ℚ) (j : ℕ) (hj : j < n_bark_bands) :
    (compute_masking_thresholds_libnrepel est log10q pow10q spectrum m0 off0 thr0).2 j =
      spec_masking_offset
        (compute_tonality_factor log10q spectrum
          (compute_bark_spectrum est.bark_z spectrum est.half_fft_size).2.1
          (compute_bark_spectrum est.bark_z spectrum est.half_fft_size).2.2 j) j ∧
    (compute_masking_thresholds est log10q pow10q spectrum m0 off0 thr0).2 j =
      relative_thresholds j + (if 15 < j then 20 else 0) := by
  constructor
  · simp only [compute_masking_thresholds_libnrepel, compute_masking_thresholds_core,
      masking_band_loop]
    rw [cFor_fst_setIdx _ _ 0 n_bark_bands j (Nat.zero_le j) (by omega)]
    simp [band_masking_offset, masking_offset_formula, spec_masking_offset]
  · simp only [compute_masking_thresholds, compute_masking_thresholds_core,
      masking_band_loop]
    rw [cFor_fst_setIdx _ _ 0 n_bark_bands j (Nat.zero_le j) (by omega)]
    simp [band_masking_offset]

/-- Witness for the amended claim C1 at band 0 of the concrete estimator. -/
theorem masking_offset_by_variant_witness :
    ((0 : ℕ) < n_bark_bands) ∧
    ((compute_masking_thresholds_libnrepel estTest (fun _ => 0) (fun _ => 0)
        (fun _ => 1) (fun _ => 0) (fun _ => 0) (fun _ => 0)).2 0 =
      spec_masking_offset
        (compute_tonality_factor (fun _ => 0) (fun _ => 1)
          (compute_bark_spectrum estTest.bark_z (fun _ => 1) estTest.half_fft_size).2.1
          (compute_bark_spectrum estTest.bark_z (fun _ => 1) estTest.half_fft_size).2.2 0) 0 ∧
     (compute_masking_thresholds estTest (fun _ => 0) (fun _ => 0) (fun _ => 1)
        (fun _ => 0) (fun _ => 0) (fun _ => 0)).2 0 =
      relative_thresholds 0 + (if 15 < (0 : ℕ) then 20 else 0)) :=
  ⟨by norm_num [n_bark_bands],
   masking_offset_by_variant estTest (fun _ => 0) (fun _ => 0) (fun _ => 1)
     (fun _ => 0) (fun _ => 0) (fun _ => 0) 0 (by norm_num [n_bark_bands])⟩

/-! ## Stage bookkeeping lemmas for spectral_processor_run -/

theorem soft_bypass_fields (s : SpectralProcessor) :
    (fft_denoiser_soft_bypass s).whitening_window_count = s.whitening_window_count ∧
    (fft_denoiser_soft_bypass s).residual_max_spectrum = s.residual_max_spectrum ∧
    (fft_denoiser_soft_bypass s).half_fft_size = s.half_fft_size ∧
    (fft_denoiser_soft_bypass s).noise_profile = s.noise_profile ∧
    (fft_denoiser_soft_bypass s).gain_spectrum = s.gain_spectrum ∧
    (fft_denoiser_soft_bypass s).denoised_spectrum = s.denoised_spectrum ∧
    (fft_denoiser_soft_bypass s).residual_spectrum = s.residual_spectrum :=
  ⟨rfl, rfl, rfl, rfl, rfl, rfl, rfl⟩

theorem soft_bypass_processed_zero (s : SpectralProcessor) :
    (fft_denoiser_soft_bypass s).processed_fft_spectrum 0 =
      s.processed_fft_spectrum 0 := by
  simp only [fft_denoiser_soft_bypass]
  exact cFor_setIdx_out _ 1 s.half_fft_size 0 _ (Or.inl Nat.one_pos)

theorem final_spectrum_fields (s : SpectralProcessor) (rl : Bool) (ra : ℚ) :
    (get_final_spectrum s rl ra).whitening_window_count = s.whitening_window_count ∧
    (get_final_spectrum s rl ra).residual_max_spectrum = s.residual_max_spectrum ∧
    (get_final_spectrum s rl ra).half_fft_size = s.half_fft_size := by
  unfold get_final_spectrum
  split <;> exact ⟨rfl, rfl, rfl⟩

theorem final_spectrum_processed_zero (s : SpectralProcessor) (rl : Bool) (ra : ℚ) :
    (get_final_spectrum s rl ra).processed_fft_spectrum 0 =
      s.processed_fft_spectrum 0 := by
  unfold get_final_spectrum
  split <;>
  · dsimp only
    exact cFor_setIdx_out _ 1 s.half_fft_size 0 _ (Or.inl Nat.one_pos)

theorem residual_stage_processed (s : SpectralProcessor) (w : ℚ) :
    (get_residual_spectrum s w).processed_fft_spectrum =
      s.processed_fft_spectrum := by
  unfold get_residual_spectrum residual_spectrum_whitening
  split <;> rfl

theorem residual_stage_half (s : SpectralProcessor) (w : ℚ) :
    (get_residual_spectrum s w).half_fft_size = s.half_fft_size := by
  unfold get_residual_spectrum residual_spectrum_whitening
  split <;> rfl

/-! ## Claim C5: empty frames skip the whole pipeline -/

/-- Claim C5: when every bin of the frame power spectrum is at most
FLT_MIN (the is_empty test of the source), spectral_processor_run neither
learns noise nor estimates gain nor denoises: the noise profile, the gain
spectrum, the denoised and residual builders and the whitening state are
all left unmodified, and the frame state receives exactly the soft-bypass
mix (on top of the always-performed crossfade advance and spectra
bookkeeping). -/
theorem spectral_run_skips_empty_frame
    (ner : (ℕ → ℚ) → (ℕ → ℚ) → (ℕ → ℚ)) (avail : Bool)
    (ger : (ℕ → ℚ) → (ℕ → ℚ) → ℚ → ℚ → ℚ → ℚ → (ℕ → ℚ))
    (s : SpectralProcessor) (params : ProcessorParameters) (input : ℕ → ℚ)
    (h : is_empty (get_fft_power_spectrum input s.fft_size s.half_fft_size)
      s.half_fft_size = true) :
    (spectral_processor_run ner avail ger s params input).1.noise_profile =
      s.noise_profile ∧
    (spectral_processor_run ner avail ger s params input).1.gain_spectrum =
      s.gain_spectrum ∧
    (spectral_processor_run ner avail ger s params input).1.denoised_spectrum =
      s.denoised_spectrum ∧
    (spectral_processor_run ner avail ger s params input).1.residual_spectrum =
      s.residual_spectrum ∧
    (spectral_processor_run ner avail ger s params input).1.residual_max_spectrum =
      s.residual_max_spectrum ∧
    (spectral_processor_run ner avail ger s params input).1.whitening_window_count =
      s.whitening_window_count ∧
    (spectral_processor_run ner avail ger s params input).1 =
      fft_denoiser_soft_bypass
        { s with
          wet_dry_target :=
            (fft_denoiser_update_wetdry_target s.tau s.wet_dry params.enable).1
          wet_dry :=
            (fft_denoiser_update_wetdry_target s.tau s.wet_dry params.enable).2
          fft_spectrum := input
          power_spectrum :=
            get_fft_power_spectrum input s.fft_size s.half_fft_size } := by
  have key : (spectral_processor_run ner avail ger s params input).1 =
      fft_denoiser_soft_bypass
        { s with
          wet_dry_target :=
            (fft_denoiser_update_wetdry_target s.tau s.wet_dry params.enable).1
          wet_dry :=
            (fft_denoiser_update_wetdry_target s.tau s.wet_dry params.enable).2
          fft_spectrum := input
          power_spectrum :=
            get_fft_power_spectrum input s.fft_size s.half_fft_size } := by
    simp [spectral_processor_run, h]
  refine ⟨?_, ?_, ?_, ?_, ?_, ?_, key⟩ <;> rw [key] <;> rfl

/-- Witness for claim C5: an all-zero frame on the concrete processor is
detected as empty and leaves the noise profile, gain spectrum and
whitening counter untouched. -/
theorem spectral_run_skips_empty_frame_witness :
    (is_empty (get_fft_power_spectrum (fun _ => 0) spTest.fft_size
        spTest.half_fft_size) spTest.half_fft_size = true) ∧
    (spectral_processor_run noiseEstTest true gainEstTest spTest paramsTest
        (fun _ => 0)).1.noise_profile = spTest.noise_profile ∧
    (spectral_processor_run noiseEstTest true gainEstTest spTest paramsTest
        (fun _ => 0)).1.gain_spectrum = spTest.gain_spectrum ∧
    (spectral_processor_run noiseEstTest true gainEstTest spTest paramsTest
        (fun _ => 0)).1.whitening_window_count = spTest.whitening_window_count := by
  have hemp : is_empty (get_fft_power_spectrum (fun _ => 0) spTest.fft_size
      spTest.half_fft_size) spTest.half_fft_size = true := by
    norm_num [is_empty, get_fft_power_spectrum, spTest, flt_min, List.range_succ]
  have h := spectral_run_skips_empty_frame noiseEstTest true gainEstTest spTest
    paramsTest (fun _ => 0) hemp
  exact ⟨hemp, h.1, h.2.1, h.2.2.2.2.2.1⟩

/-! ## Claim C7: the whitening floor on the residual maximum -/

/-- Every invocation of residual_spectrum_whitening leaves every processed
bin 1 <= k <= half_fft_size of the residual running maximum at or above
WHITENING_FLOOR, whatever the previous state was. -/
theorem residual_whitening_floor (s : SpectralProcessor) (w : ℚ) (k : ℕ)
    (hk1 : 1 ≤ k) (hk2 : k ≤ s.half_fft_size) :
    whitening_floor ≤ (residual_spectrum_whitening s w).residual_max_spectrum k := by
  simp only [residual_spectrum_whitening]
  rw [cFor_setIdx_mem (fun a j => if 1 < s.whitening_window_count + 1 then
      max (max (s.residual_spectrum j) whitening_floor) (a j * s.max_decay_rate)
    else max (s.residual_spectrum j) whitening_floor)
    (fun a b j h => by simp only [h]) 1 s.half_fft_size k _ hk1 (by omega)]
  split
  · exact le_trans (le_max_right _ _) (le_max_left _ _)
  · exact le_max_right _ _

/-- The residual stage preserves the whitening-floor invariant: when it
whitens it re-establishes the floor, and otherwise it changes neither the
counter nor the running maximum. -/
theorem residual_stage_floor (s : SpectralProcessor) (w : ℚ) (k : ℕ)
    (hk1 : 1 ≤ k) (hk2 : k ≤ s.half_fft_size)
    (hs : 1 ≤ s.whitening_window_count →
      whitening_floor ≤ s.residual_max_spectrum k) :
    1 ≤ (get_residual_spectrum s w).whitening_window_count →
      whitening_floor ≤ (get_residual_spectrum s w).residual_max_spectrum k := by
  unfold get_residual_spectrum
  split
  · intro _
    exact residual_whitening_floor _ w k hk1 hk2
  · exact hs

/-- Claim C7 (amended): for the processed bins 1 <= k <= half_fft_size,
the invariant that whitening_window_count >= 1 implies
residual_max_spectrum[k] >= WHITENING_FLOOR = 0.02 is preserved by every
spectral_processor_run frame: whitening establishes the floor whenever it
runs, and no other part of the frame touches the whitening state.  On the
zero-initialized state the invariant holds vacuously, so it holds in every
reachable state. -/
theorem whitening_floor_invariant
    (ner : (ℕ → ℚ) → (ℕ → ℚ) → (ℕ → ℚ)) (avail : Bool)
    (ger : (ℕ → ℚ) → (ℕ → ℚ) → ℚ → ℚ → ℚ → ℚ → (ℕ → ℚ))
    (s : SpectralProcessor) (params : ProcessorParameters) (input : ℕ → ℚ)
    (k : ℕ) (hk1 : 1 ≤ k) (hk2 : k ≤ s.half_fft_size)
    (hs : 1 ≤ s.whitening_window_count →
      whitening_floor ≤ s.residual_max_spectrum k) :
    1 ≤ (spectral_processor_run ner avail ger s params
        input).1.whitening_window_count →
      whitening_floor ≤ (spectral_processor_run ner avail ger s params
        input).1.residual_max_spectrum k := by
  simp only [spectral_processor_run]
  split_ifs with h1 h2 h3 <;>
    first
      | exact hs
      | · rw [(soft_bypass_fields _).1, (soft_bypass_fields _).2.1,
            (final_spectrum_fields _ _ _).1, (final_spectrum_fields _ _ _).2.1]
          exact residual_stage_floor _ params.whitening_factor k hk1 hk2 hs

/-- Claim C7 (counterexample): the very first whitening invocation, from
the zero-initialized concrete state, brings whitening_window_count to 1
while residual_max_spectrum[0] stays 0 < 0.02: the bound fails at the DC
bin, which no whitening loop ever writes. -/
theorem whitening_floor_dc_counterexample :
    1 ≤ (residual_spectrum_whitening spTest 1).whitening_window_count ∧
    (residual_spectrum_whitening spTest 1).residual_max_spectrum 0 = 0 ∧
    ¬ (whitening_floor ≤
        (residual_spectrum_whitening spTest 1).residual_max_spectrum 0) := by
  have h0 : (residual_spectrum_whitening spTest 1).residual_max_spectrum 0 = 0 := by
    simp only [residual_spectrum_whitening]
    rw [cFor_setIdx_out _ 1 spTest.half_fft_size 0 _ (Or.inl Nat.one_pos)]
    rfl
  refine ⟨le_refl 1, h0, ?_⟩
  rw [h0]
  norm_num [whitening_floor]

/-- Witness for the amended claim C7 on the concrete processor at bin 1. -/
theorem whitening_floor_invariant_witness :
    ((1 : ℕ) ≤ 1 ∧ (1 : ℕ) ≤ spTest.half_fft_size ∧
      (1 ≤ spTest.whitening_window_count →
        whitening_floor ≤ spTest.residual_max_spectrum 1)) ∧
    (1 ≤ (spectral_processor_run noiseEstTest true gainEstTest spTest paramsWhiten
        (fun _ => 1)).1.whitening_window_count →
      whitening_floor ≤ (spectral_processor_run noiseEstTest true gainEstTest spTest
        paramsWhiten (fun _ => 1)).1.residual_max_spectrum 1) :=
  ⟨⟨le_refl 1, by decide, fun h => absurd h (by decide)⟩,
   whitening_floor_invariant noiseEstTest true gainEstTest spTest paramsWhiten
     (fun _ => 1) 1 (le_refl 1) (by decide) (fun h => absurd h (by decide))⟩

/-! ## Claim C10: the DC bin is never written -/

/-- Claim C10: every per-bin loop of spectral_processor_run (soft bypass,
denoised and residual construction, whitening, final mixing) iterates from
bin 1, so bin 0 of processed_fft_spectrum is never written; starting from
its zero-initialized value it stays 0, and the DC value copied back to the
caller is 0, independent of the frame input. -/
theorem spectral_run_dc_untouched
    (ner : (ℕ → ℚ) → (ℕ → ℚ) → (ℕ → ℚ)) (avail : Bool)
    (ger : (ℕ → ℚ) → (ℕ → ℚ) → ℚ → ℚ → ℚ → ℚ → (ℕ → ℚ))
    (s : SpectralProcessor) (params : ProcessorParameters) (input : ℕ → ℚ)
    (hhalf : 0 < s.half_fft_size) (h0 : s.processed_fft_spectrum 0 = 0) :
    (spectral_processor_run ner avail ger s params
      input).1.processed_fft_spectrum 0 = 0 ∧
    (spectral_processor_run ner avail ger s params input).2 0 = 0 := by
  have hp : (spectral_processor_run ner avail ger s params
      input).1.processed_fft_spectrum 0 = s.processed_fft_spectrum 0 := by
    simp only [spectral_processor_run]
    rw [soft_bypass_processed_zero]
    split_ifs with h1 h2 h3 <;>
      first
        | rfl
        | · rw [final_spectrum_processed_zero, residual_stage_processed]
            rfl
  have hh : (spectral_processor_run ner avail ger s params
      input).1.half_fft_size = s.half_fft_size := by
    simp only [spectral_processor_run]
    rw [(soft_bypass_fields _).2.2.1]
    split_ifs with h1 h2 h3 <;>
      first
        | rfl
        | · rw [(final_spectrum_fields _ _ _).2.2, residual_stage_half]
            rfl
  have hout : (spectral_processor_run ner avail ger s params input).2 0 =
      if 0 < (spectral_processor_run ner avail ger s params
        input).1.half_fft_size then
        (spectral_processor_run ner avail ger s params
          input).1.processed_fft_spectrum 0
      else input 0 := rfl
  constructor
  · rw [hp, h0]
  · rw [hout, if_pos (by rw [hh]; exact hhalf), hp, h0]

/-- Witness for claim C10 on the concrete processor with a nonzero frame. -/
theorem spectral_run_dc_untouched_witness :
    ((0 : ℕ) < spTest.half_fft_size ∧ spTest.processed_fft_spectrum 0 = 0) ∧
    (spectral_processor_run noiseEstTest true gainEstTest spTest paramsWhiten
      (fun _ => 1)).1.processed_fft_spectrum 0 = 0 ∧
    (spectral_processor_run noiseEstTest true gainEstTest spTest paramsWhiten
      (fun _ => 1)).2 0 = 0 :=
  ⟨⟨by decide, rfl⟩,
   spectral_run_dc_untouched noiseEstTest true gainEstTest spTest paramsWhiten
     (fun _ => 1) (by decide) rfl⟩

/-! ## Claim C2: restore validation of the persisted fft_size -/

/-- Claim C2 (code evaluation): with engine fft_size 2048 (half_fft_size
1024) and a persisted profile that stores fft_size 2048 with the correct
atom types and a well-formed vector, plugin_state_restorestate returns
false: the code compares the stored fft_size against half_fft_size.
Conversely, a persisted fft_size of 1024 - which differs from the engine
fft_size - is accepted.  The engine profile and window count are returned
unchanged on every path, successful or not. -/
theorem restore_rejects_matching_fft_size :
    plugin_state_restorestate 1 2 3 16 (some ⟨2048, 4, 1⟩)
      (some ⟨(fun _ => 1), 16, 3⟩) none (fun _ => 0) 0 2048 1024 (fun _ => 0) =
      (false, (fun _ => 0), 0, (fun _ => 0)) ∧
    (plugin_state_restorestate 1 2 3 16 (some ⟨1024, 4, 1⟩)
      (some ⟨(fun _ => 1), 16, 3⟩) none (fun _ => 0) 0 2048 1024
      (fun _ => 0)).1 = true ∧
    (plugin_state_restorestate 1 2 3 16 (some ⟨1024, 4, 1⟩)
      (some ⟨(fun _ => 1), 16, 3⟩) none (fun _ => 0) 0 2048 1024
      (fun _ => 0)).2.1 = (fun _ => 0) ∧
    (plugin_state_restorestate 1 2 3 16 (some ⟨1024, 4, 1⟩)
      (some ⟨(fun _ => 1), 16, 3⟩) none (fun _ => 0) 0 2048 1024
      (fun _ => 0)).2.2.1 = 0 := by
  refine ⟨?_, ?_, ?_, ?_⟩ <;>
    simp [plugin_state_restorestate]

/-! ## Claim C8: spectral reassembly and phase preservation -/

/-- Claim C8 (code evaluation): the reassembly writes the imaginary part
with the cosine of the phase, identical to the real part, instead of the
sine: at magnitude 1 and a phase whose cosine is 3/5 and sine is 4/5, the
imaginary part comes out 3/5, not 4/5, so the analysis phase is not
preserved. -/
theorem reassembly_imag_uses_cos :
    (reassemble_complex_bin (fun _ => 3 / 5) (fun _ => 4 / 5) 1 1).2 = 3 / 5 ∧
    (reassemble_complex_bin (fun _ => 3 / 5) (fun _ => 4 / 5) 1 1).2 ≠
      1 * (4 / 5) ∧
    (reassemble_complex_bin (fun _ => 3 / 5) (fun _ => 4 / 5) 1 1).1 =
      (reassemble_complex_bin (fun _ => 3 / 5) (fun _ => 4 / 5) 1 1).2 := by
  refine ⟨?_, ?_, rfl⟩ <;> norm_num [reassemble_complex_bin]

/-! ## Claim C9: the persisted profile copy length -/

/-- Claim C9 (code evaluation): the savestate memcpy length is
sizeof(int) = 4 bytes, one float, so with half_fft_size 1 only values[0]
of the two-element profile reaches the persisted vector and values[1]
keeps its previous content: the copy length is not
(half_fft_size + 1) * sizeof(float). -/
theorem savestate_copies_single_float :
    plugin_state_savestate_values (fun _ => 0) (fun _ => 7) 0 = 7 ∧
    plugin_state_savestate_values (fun _ => 0) (fun _ => 7) 1 = 0 ∧
    plugin_state_savestate_values (fun _ => 0) (fun _ => 7) 1 ≠ 7 := by
  refine ⟨?_, ?_, ?_⟩ <;>
    norm_num [plugin_state_savestate_values, sizeof_int, sizeof_float]
